import Mathlib

deriving instance DecidableEq for Except

/-!
Verification development for the workout tracker (`scripts/workout.py`).

The SQLite tables are modelled as lists of row structures, SQL `REAL`
values as rationals, and ISO-8601 date / timestamp strings as `String`
compared lexicographically — exactly the comparison the source performs
(`now_iso > row["end_time"]` on Python strings).  Autoincremented primary
keys are modelled by explicit `next…Id` counters in the store.
-/

namespace WorkoutPy

/-- `LB_TO_KG = 0.45359237` (workout.py line 31), as an exact rational. -/
def LB_TO_KG : ℚ := 45359237 / 100000000

/-- Row of the `exercises` table. -/
structure Exercise where
  id : Nat
  name : String
  primary_muscle : Option String
  secondary_muscles : Option String
deriving DecidableEq, Repr

/-- Row of the `workouts` table.  `notes` is never written by any command
and stays `none`. -/
structure Workout where
  id : Nat
  date : String
  start_time : String
  end_time : Option String
  notes : Option String
deriving DecidableEq, Repr

/-- Row of the `sets` table. -/
structure SetRow where
  id : Nat
  workout_id : Nat
  exercise_id : Nat
  timestamp : String
  input_weight : ℚ
  input_unit : String
  weight_kg : ℚ
  reps : ℤ
  rpe : Option ℚ
  notes : Option String
deriving DecidableEq, Repr

/-- The SQLite database: the three tables plus the autoincrement counters. -/
structure Store where
  exercises : List Exercise
  workouts : List Workout
  sets : List SetRow
  nextExerciseId : Nat
  nextWorkoutId : Nat
  nextSetId : Nat
deriving DecidableEq, Repr

/-- `find_exercise_by_name` (workout.py lines 111–123):
`SELECT … FROM exercises WHERE name = ?` returning the first match. -/
def find_exercise_by_name (db : Store) (name : String) : Option Exercise :=
  db.exercises.find? fun e => e.name == name

/-- SQL `COALESCE(new, old)`: the first non-NULL argument. -/
def coalesce (new old : Option String) : Option String :=
  match new with
  | some v => some v
  | none => old

/-- Python `new or old` on optional strings: both `None` and `""` are falsy. -/
def pyOr (new old : Option String) : Option String :=
  match new with
  | some v => if v = "" then old else some v
  | none => old

/-- `add_or_update_exercise` (workout.py lines 126–146).  When the name
exists, the row is updated with `COALESCE(?, column)` and the function
returns a dataclass built with Python `or`; otherwise a new row is
inserted and returned. -/
def add_or_update_exercise (db : Store) (name : String)
    (primary_muscle secondary_muscles : Option String) : Store × Exercise :=
  match find_exercise_by_name db name with
  | some existing =>
      ({ db with exercises := db.exercises.map fun e =>
            if e.id = existing.id then
              { e with
                  primary_muscle := coalesce primary_muscle e.primary_muscle,
                  secondary_muscles := coalesce secondary_muscles e.secondary_muscles }
            else e },
       ⟨existing.id, name, pyOr primary_muscle existing.primary_muscle,
        pyOr secondary_muscles existing.secondary_muscles⟩)
  | none =>
      ({ db with
          exercises :=
            db.exercises ++ [⟨db.nextExerciseId, name, primary_muscle, secondary_muscles⟩],
          nextExerciseId := db.nextExerciseId + 1 },
       ⟨db.nextExerciseId, name, primary_muscle, secondary_muscles⟩)

/-- `SELECT … FROM workouts WHERE date = ? ORDER BY id DESC LIMIT 1`:
the row with the greatest id among those matching the date.  `maxById`
scans a list keeping the element with the largest id. -/
def maxById : List Workout → Option Workout
  | [] => none
  | w :: ws =>
      match maxById ws with
      | none => some w
      | some m => if m.id < w.id then some w else some m

/-- The lookup performed by `get_or_create_workout_for_date`
(workout.py lines 155–158). -/
def latestWorkoutForDate (ws : List Workout) (d : String) : Option Workout :=
  maxById (ws.filter fun w => w.date == d)

/-- Python's `a < b` on strings: lexicographic comparison of the character
sequences (`String.lt_iff_toList_lt` shows this is the standard strict
order on `String`). -/
def strLt (a b : String) : Bool :=
  decide (a.data < b.data)

/-- `get_or_create_workout_for_date` (workout.py lines 149–175): find the
most recent workout for the date; if found, extend its `end_time` when it is
NULL or earlier than the new timestamp (Python string comparison), else
insert a fresh workout with `start = end = now`. -/
def get_or_create_workout_for_date (db : Store) (d now_iso : String) :
    Store × Nat :=
  match latestWorkoutForDate db.workouts d with
  | some row =>
      let extend : Bool :=
        match row.end_time with
        | none => true
        | some e => strLt e now_iso
      (if extend then
         { db with workouts := db.workouts.map fun w =>
             if w.id = row.id then { w with end_time := some now_iso } else w }
       else db,
       row.id)
  | none =>
      ({ db with
          workouts := db.workouts ++ [⟨db.nextWorkoutId, d, now_iso, some now_iso, none⟩],
          nextWorkoutId := db.nextWorkoutId + 1 },
       db.nextWorkoutId)

/-- `epley_e1rm` (workout.py lines 178–181). -/
def epley_e1rm (weight_kg : ℚ) (reps : ℤ) : ℚ :=
  if reps ≤ 1 then weight_kg else weight_kg * (1 + (reps : ℚ) / 30)

/-- The inline SQL expression `weight_kg * (1.0 + reps / 30.0)` used by
`cmd_summary` (line 434) and `cmd_prs` (lines 463, 467, 470).  Note it has
no `reps <= 1` branch. -/
def sqlE1rm (weight_kg : ℚ) (reps : ℤ) : ℚ :=
  weight_kg * (1 + (reps : ℚ) / 30)

/-- The group of set rows belonging to one exercise
(`WHERE exercise_id = ?` / `GROUP BY exercise_id`). -/
def setsOfExercise (db : Store) (exId : Nat) : List SetRow :=
  db.sets.filter fun s => s.exercise_id == exId

/-- SQL aggregate `MAX(weight_kg * (1.0 + reps / 30.0))` over a group of
set rows; `NULL` (`none`) for an empty group. -/
def maxSqlE1rm : List SetRow → Option ℚ
  | [] => none
  | s :: rest =>
      match maxSqlE1rm rest with
      | none => some (sqlE1rm s.weight_kg s.reps)
      | some m => some (max (sqlE1rm s.weight_kg s.reps) m)

/-- Maximum of `epley_e1rm` over a group of set rows — the best e1RM as the
spec defines it (with the `reps <= 1` branch). -/
def maxEpleyE1rm : List SetRow → Option ℚ
  | [] => none
  | s :: rest =>
      match maxEpleyE1rm rest with
      | none => some (epley_e1rm s.weight_kg s.reps)
      | some m => some (max (epley_e1rm s.weight_kg s.reps) m)

/-- The `best_e1rm` column of `cmd_summary` (workout.py line 434) for one
exercise. -/
def summary_best_e1rm (db : Store) (exId : Nat) : Option ℚ :=
  maxSqlE1rm (setsOfExercise db exId)

/-- The rows `cmd_prs` (workout.py lines 456–473) reports for one exercise:
every set whose SQL e1rm expression equals the per-exercise maximum of that
expression (the join condition `m.max_e1rm = (s.weight_kg * (1.0 + s.reps / 30.0))`). -/
def prs_rows_for (db : Store) (exId : Nat) : List SetRow :=
  (setsOfExercise db exId).filter fun s =>
    decide (maxSqlE1rm (setsOfExercise db exId) = some (sqlE1rm s.weight_kg s.reps))

/-- Error outcomes of `cmd_log` (workout.py lines 207–281). -/
inductive LogError where
  | badUnit
  | badReps
  | exerciseNotFound
  | fkViolationWorkout
deriving DecidableEq, Repr

/-- The unit-normalization expression of workout.py line 236:
`weight if input_unit == "kg" else weight * LB_TO_KG`
(the spec's `toKilograms`). -/
def toKilograms (weight : ℚ) (unit : String) : ℚ :=
  if unit = "kg" then weight else weight * LB_TO_KG

/-- The SQL `CASE WHEN end_time IS NULL OR ? > end_time THEN ? ELSE end_time END`
expression of workout.py line 252, applied row-wise. -/
def extendEnd (w : Workout) (now_iso : String) : Workout :=
  match w.end_time with
  | none => { w with end_time := some now_iso }
  | some e => if strLt e now_iso then { w with end_time := some now_iso } else w

/-- The `INSERT INTO sets …` of workout.py lines 259–275.  Python stores
`args.notes if args.notes else None`, i.e. an empty string becomes NULL. -/
def insertNewSet (db : Store) (wid exId : Nat) (ts : String) (weight : ℚ)
    (unit : String) (weight_kg : ℚ) (reps : ℤ) (rpe : Option ℚ)
    (notes : Option String) : Store :=
  { db with
      sets := db.sets ++
        [⟨db.nextSetId, wid, exId, ts, weight, unit, weight_kg, reps, rpe, pyOr notes none⟩],
      nextSetId := db.nextSetId + 1 }

/-- `cmd_log` (workout.py lines 207–281) with the textual argument parsing
already done: validate the unit and the rep count, look up the exercise,
resolve the owning workout (explicit id or the date grouper), then insert
the set row.  The returned store reflects what is committed when the
command ends, including on the error paths (every error is raised before
any data row is written; the no-op `UPDATE` of a nonexistent explicit
workout id commits nothing visible before the insert's FK failure). -/
def cmd_log (db : Store) (exercise : String) (weight : ℚ) (reps : ℤ)
    (unit : String) (d ts : String) (workout_id : Option Nat)
    (rpe : Option ℚ) (notes : Option String) : Store × Except LogError Unit :=
  if unit ≠ "kg" ∧ unit ≠ "lb" then (db, .error .badUnit)
  else if reps ≤ 0 then (db, .error .badReps)
  else
    match find_exercise_by_name db exercise with
    | none => (db, .error .exerciseNotFound)
    | some ex =>
        match workout_id with
        | some wid =>
            let db1 : Store := { db with workouts := db.workouts.map fun w =>
                if w.id = wid then extendEnd w ts else w }
            if db.workouts.any fun w => w.id == wid then
              (insertNewSet db1 wid ex.id ts weight unit (toKilograms weight unit)
                 reps rpe notes, .ok ())
            else (db1, .error .fkViolationWorkout)
        | none =>
            let r := get_or_create_workout_for_date db d ts
            (insertNewSet r.1 r.2 ex.id ts weight unit (toKilograms weight unit)
               reps rpe notes, .ok ())

/-- Number of workout rows carrying a given date. -/
def countWorkoutsOnDate (ws : List Workout) (d : String) : Nat :=
  ws.countP fun w => w.date == d

/-- The canonical-weight invariant on a persisted set row. -/
def SetOk (s : SetRow) : Prop :=
  (s.input_unit = "kg" → s.weight_kg = s.input_weight) ∧
  (s.input_unit = "lb" → s.weight_kg = s.input_weight * LB_TO_KG)

/-! ### Helper lemmas -/

theorem strLt_iff_lt (a b : String) : strLt a b = true ↔ a < b := by
  rw [String.lt_iff_toList_lt]
  simp [strLt, String.toList]

theorem le_of_strLt {a b : String} (h : strLt a b = true) : a ≤ b :=
  le_of_lt ((strLt_iff_lt a b).mp h)

theorem maxById_mem : ∀ {ws : List Workout} {m : Workout}, maxById ws = some m → m ∈ ws := by
  intro ws
  induction ws with
  | nil => intro m h; simp [maxById] at h
  | cons w t ih =>
    intro m h
    cases hrec : maxById t with
    | none =>
      simp only [maxById, hrec] at h
      cases h
      exact List.mem_cons_self _ _
    | some m2 =>
      simp only [maxById, hrec] at h
      by_cases hlt : m2.id < w.id
      · rw [if_pos hlt] at h
        cases h
        exact List.mem_cons_self _ _
      · rw [if_neg hlt] at h
        cases h
        exact List.mem_cons_of_mem _ (ih hrec)

theorem maxById_cons_isSome (a : Workout) (l : List Workout) :
    ∃ m, maxById (a :: l) = some m := by
  cases h2 : maxById l with
  | none => exact ⟨a, by simp [maxById, h2]⟩
  | some m2 =>
    by_cases hlt : m2.id < a.id
    · exact ⟨a, by simp [maxById, h2, if_pos hlt]⟩
    · exact ⟨m2, by simp [maxById, h2, if_neg hlt]⟩

theorem latestWorkoutForDate_eq_none {ws : List Workout} {d : String}
    (h : ∀ w ∈ ws, w.date ≠ d) : latestWorkoutForDate ws d = none := by
  unfold latestWorkoutForDate
  rw [List.filter_eq_nil_iff.mpr (by intro w hw; simpa using h w hw)]
  rfl

theorem latestWorkoutForDate_append {ws : List Workout} {w : Workout} {d : String}
    (hw : w.date = d) (h : ∀ x ∈ ws, x.date ≠ d) :
    latestWorkoutForDate (ws ++ [w]) d = some w := by
  unfold latestWorkoutForDate
  rw [List.filter_append,
    List.filter_eq_nil_iff.mpr (by intro x hx; simpa using h x hx)]
  simp [List.filter, hw, maxById]

theorem latestWorkoutForDate_mem {ws : List Workout} {d : String} {m : Workout}
    (h : latestWorkoutForDate ws d = some m) : m ∈ ws ∧ m.date = d := by
  unfold latestWorkoutForDate at h
  have hmem := maxById_mem h
  exact ⟨List.mem_of_mem_filter hmem, by simpa using List.of_mem_filter hmem⟩

theorem latestWorkoutForDate_isSome {ws : List Workout} {d : String}
    (w : Workout) (hmem : w ∈ ws) (hd : w.date = d) :
    ∃ m, latestWorkoutForDate ws d = some m := by
  unfold latestWorkoutForDate
  have hw : w ∈ ws.filter fun x => x.date == d :=
    List.mem_filter.mpr ⟨hmem, by simp [hd]⟩
  cases hfil : ws.filter (fun x => x.date == d) with
  | nil => rw [hfil] at hw; cases hw
  | cons a l => exact maxById_cons_isSome a l

theorem extendEnd_end_mono {w : Workout} {t e : String} (he : w.end_time = some e) :
    ∃ e2, (extendEnd w t).end_time = some e2 ∧ e ≤ e2 := by
  unfold extendEnd
  rw [he]
  dsimp only
  by_cases hlt : strLt e t = true
  · rw [if_pos hlt]
    exact ⟨t, rfl, le_of_strLt hlt⟩
  · rw [if_neg hlt]
    exact ⟨e, he, le_refl e⟩

theorem get_or_create_fresh {db : Store} {d ts : String}
    (h : ∀ w ∈ db.workouts, w.date ≠ d) :
    get_or_create_workout_for_date db d ts =
      ({ db with
          workouts := db.workouts ++ [⟨db.nextWorkoutId, d, ts, some ts, none⟩],
          nextWorkoutId := db.nextWorkoutId + 1 }, db.nextWorkoutId) := by
  unfold get_or_create_workout_for_date
  rw [latestWorkoutForDate_eq_none h]

theorem get_or_create_found {db : Store} {d ts : String} {row : Workout}
    (h : latestWorkoutForDate db.workouts d = some row) :
    (get_or_create_workout_for_date db d ts).2 = row.id ∧
    ((get_or_create_workout_for_date db d ts).1.workouts =
        db.workouts.map (fun w =>
          if w.id = row.id then { w with end_time := some ts } else w) ∨
      (get_or_create_workout_for_date db d ts).1.workouts = db.workouts) ∧
    (get_or_create_workout_for_date db d ts).1.sets = db.sets ∧
    (get_or_create_workout_for_date db d ts).1.exercises = db.exercises ∧
    (get_or_create_workout_for_date db d ts).1.nextSetId = db.nextSetId := by
  unfold get_or_create_workout_for_date
  rw [h]
  dsimp only
  cases hB : (match row.end_time with | none => true | some e => strLt e ts : Bool) with
  | true => refine ⟨rfl, Or.inl ?_, ?_, ?_, ?_⟩ <;> simp
  | false => refine ⟨rfl, Or.inr ?_, ?_, ?_, ?_⟩ <;> simp

theorem get_or_create_sets_eq (db : Store) (d ts : String) :
    (get_or_create_workout_for_date db d ts).1.sets = db.sets := by
  cases h : latestWorkoutForDate db.workouts d with
  | some row => exact (get_or_create_found h).2.2.1
  | none =>
    unfold get_or_create_workout_for_date
    rw [h]

theorem get_or_create_exercises_eq (db : Store) (d ts : String) :
    (get_or_create_workout_for_date db d ts).1.exercises = db.exercises := by
  cases h : latestWorkoutForDate db.workouts d with
  | some row => exact (get_or_create_found h).2.2.2.1
  | none =>
    unfold get_or_create_workout_for_date
    rw [h]

theorem countWorkoutsOnDate_map_update (ws : List Workout) (i : Nat) (t d : String) :
    countWorkoutsOnDate
        (ws.map fun w => if w.id = i then { w with end_time := some t } else w) d
      = countWorkoutsOnDate ws d := by
  unfold countWorkoutsOnDate
  rw [List.countP_map]
  apply List.countP_congr
  intro w _
  by_cases h : w.id = i <;> simp [h, Function.comp]

theorem countWorkoutsOnDate_append (l1 l2 : List Workout) (d : String) :
    countWorkoutsOnDate (l1 ++ l2) d =
      countWorkoutsOnDate l1 d + countWorkoutsOnDate l2 d :=
  List.countP_append _ _ _

theorem countWorkoutsOnDate_eq_zero {ws : List Workout} {d : String}
    (h : ∀ w ∈ ws, w.date ≠ d) : countWorkoutsOnDate ws d = 0 :=
  List.countP_eq_zero.mpr (by intro w hw; simpa using h w hw)

theorem date_mem_map_update {ws : List Workout} {i : Nat} {t : String} {y : Workout}
    (hy : y ∈ ws.map fun x => if x.id = i then { x with end_time := some t } else x) :
    ∃ x ∈ ws, y.date = x.date := by
  rcases List.mem_map.mp hy with ⟨x, hx, rfl⟩
  refine ⟨x, hx, ?_⟩
  by_cases h : x.id = i <;> simp [h]

theorem mem_map_update_self {ws : List Workout} {w : Workout} (hmem : w ∈ ws)
    (i : Nat) (t : String) :
    ∃ w2 ∈ ws.map (fun x => if x.id = i then { x with end_time := some t } else x),
      w2.id = w.id ∧ w2.date = w.date := by
  refine ⟨(fun x => if x.id = i then { x with end_time := some t } else x) w,
    List.mem_map_of_mem _ hmem, ?_⟩
  by_cases h : w.id = i <;> simp [h]

theorem cmd_log_implicit_eq {db : Store} {exName : String} {ex : Exercise}
    (hex : find_exercise_by_name db exName = some ex)
    {weight : ℚ} {reps : ℤ} {unit : String} (hu : unit = "kg" ∨ unit = "lb")
    (hr : 0 < reps) (d ts : String) (rpe : Option ℚ) (notes : Option String) :
    cmd_log db exName weight reps unit d ts none rpe notes =
      (insertNewSet (get_or_create_workout_for_date db d ts).1
         (get_or_create_workout_for_date db d ts).2 ex.id ts weight unit
         (toKilograms weight unit) reps rpe notes, .ok ()) := by
  have h1 : ¬(unit ≠ "kg" ∧ unit ≠ "lb") := by rcases hu with h | h <;> simp [h]
  have h2 : ¬(reps ≤ 0) := by omega
  unfold cmd_log
  rw [if_neg h1, if_neg h2, hex]

theorem extendEnd_date (w : Workout) (t : String) : (extendEnd w t).date = w.date := by
  unfold extendEnd
  cases w.end_time with
  | none => rfl
  | some e =>
    dsimp only
    by_cases hlt : strLt e t = true
    · rw [if_pos hlt]
    · rw [if_neg hlt]

/-- The four possible shapes of the workouts table after `cmd_log`:
unchanged, the explicit-id row-wise `CASE` update, the implicit-path
conditional extension of the latest same-date workout, or the insertion of
a fresh workout. -/
theorem cmd_log_workouts_cases (db : Store) (exercise : String) (weight : ℚ)
    (reps : ℤ) (unit : String) (d ts : String) (workout_id : Option Nat)
    (rpe : Option ℚ) (notes : Option String) :
    ((cmd_log db exercise weight reps unit d ts workout_id rpe notes).1).workouts
        = db.workouts ∨
    (∃ wid : Nat,
      ((cmd_log db exercise weight reps unit d ts workout_id rpe notes).1).workouts
        = db.workouts.map fun w => if w.id = wid then extendEnd w ts else w) ∨
    (∃ row : Workout, row ∈ db.workouts ∧
      (row.end_time = none ∨ ∃ e0, row.end_time = some e0 ∧ strLt e0 ts = true) ∧
      ((cmd_log db exercise weight reps unit d ts workout_id rpe notes).1).workouts
        = db.workouts.map fun w =>
            if w.id = row.id then { w with end_time := some ts } else w) ∨
    (∃ nw : Workout, latestWorkoutForDate db.workouts d = none ∧
      ((cmd_log db exercise weight reps unit d ts workout_id rpe notes).1).workouts
        = db.workouts ++ [nw]) := by
  unfold cmd_log
  by_cases h1 : (unit ≠ "kg" ∧ unit ≠ "lb")
  · rw [if_pos h1]; exact Or.inl rfl
  rw [if_neg h1]
  by_cases h2 : reps ≤ 0
  · rw [if_pos h2]; exact Or.inl rfl
  rw [if_neg h2]
  cases hex : find_exercise_by_name db exercise with
  | none => exact Or.inl rfl
  | some ex =>
    cases workout_id with
    | some wid =>
      refine Or.inr (Or.inl ⟨wid, ?_⟩)
      dsimp only
      by_cases hany : (db.workouts.any fun w => w.id == wid) = true
      · rw [if_pos hany]; rfl
      · rw [if_neg hany]
    | none =>
      dsimp only
      unfold get_or_create_workout_for_date
      cases hlat : latestWorkoutForDate db.workouts d with
      | none =>
        exact Or.inr (Or.inr (Or.inr ⟨⟨db.nextWorkoutId, d, ts, some ts, none⟩, rfl, rfl⟩))
      | some row =>
        dsimp only
        cases hB : (match row.end_time with | none => true | some e => strLt e ts : Bool) with
        | false => simp only [Bool.false_eq_true, if_false]; exact Or.inl rfl
        | true =>
          simp only [if_true]
          refine Or.inr (Or.inr (Or.inl ⟨row, (latestWorkoutForDate_mem hlat).1, ?_, rfl⟩))
          cases he : row.end_time with
          | none => exact Or.inl rfl
          | some e0 =>
            rw [he] at hB
            exact Or.inr ⟨e0, rfl, hB⟩

/-- Claim C3 — For every workout row, any single `cmd_log` call (implicit
same-date grouping or explicit workout-id attachment, success or failure)
leaves its `end_time`, once set, at a value no earlier than before: the
stored end timestamp is monotonically non-decreasing, even when the logged
set's timestamp `ts` is earlier than the stored value. -/
theorem workout_end_time_monotone (db : Store) (exercise : String) (weight : ℚ)
    (reps : ℤ) (unit : String) (d ts : String) (workout_id : Option Nat)
    (rpe : Option ℚ) (notes : Option String)
    (hnodup : (db.workouts.map Workout.id).Nodup)
    (i : Nat) (w w2 : Workout) (e : String)
    (hw : db.workouts[i]? = some w)
    (hw2 : ((cmd_log db exercise weight reps unit d ts workout_id rpe notes).1).workouts[i]?
      = some w2)
    (he : w.end_time = some e) :
    ∃ e2, w2.end_time = some e2 ∧ e ≤ e2 := by
  rcases cmd_log_workouts_cases db exercise weight reps unit d ts workout_id rpe notes with
    hcase | ⟨wid, hcase⟩ | ⟨row, hrowmem, hcond, hcase⟩ | ⟨nw, hnolat, hcase⟩
  · rw [hcase, hw] at hw2
    cases hw2
    exact ⟨e, he, le_refl e⟩
  · rw [hcase, List.getElem?_map, hw] at hw2
    cases hw2
    by_cases hid : w.id = wid
    · simp only [if_pos hid]
      exact extendEnd_end_mono he
    · simp only [if_neg hid]
      exact ⟨e, he, le_refl e⟩
  · rw [hcase, List.getElem?_map, hw] at hw2
    cases hw2
    by_cases hid : w.id = row.id
    · have hwmem : w ∈ db.workouts := List.getElem?_mem hw
      have hweq : w = row := List.inj_on_of_nodup_map hnodup hwmem hrowmem hid
      simp only [if_pos hid]
      refine ⟨ts, rfl, ?_⟩
      rcases hcond with hnone | ⟨e0, he0, hlt⟩
      · rw [hweq, hnone] at he; cases he
      · rw [hweq] at he
        rw [he0] at he
        cases Option.some.inj he
        exact le_of_strLt hlt
    · simp only [if_neg hid]
      exact ⟨e, he, le_refl e⟩
  · rw [hcase] at hw2
    have hlt : i < db.workouts.length := by
      rcases List.getElem?_eq_some.mp hw with ⟨hl, _⟩
      exact hl
    rw [List.getElem?_append, if_pos hlt, hw] at hw2
    cases hw2
    exact ⟨e, he, le_refl e⟩

theorem countWorkoutsOnDate_singleton {w : Workout} {d : String} (h : w.date = d) :
    countWorkoutsOnDate [w] d = 1 := by
  simp [countWorkoutsOnDate, List.countP_cons, h]

/-- Helper for C2's no-duplicate part: when a workout for the target date
already exists, a no-explicit-id `cmd_log` never inserts a workout row. -/
theorem cmd_log_no_new_workout_when_date_exists (db0 : Store) (exN : String)
    (wt : ℚ) (r : ℤ) (u dd tts : String) (rp : Option ℚ) (nn : Option String)
    (hexists : ∃ wo ∈ db0.workouts, wo.date = dd) :
    ((cmd_log db0 exN wt r u dd tts none rp nn).1).workouts.length
      = db0.workouts.length := by
  rcases cmd_log_workouts_cases db0 exN wt r u dd tts none rp nn with
    hc | ⟨wid, hc⟩ | ⟨row, _, _, hc⟩ | ⟨nw0, hnolat, hc⟩
  · rw [hc]
  · rw [hc, List.length_map]
  · rw [hc, List.length_map]
  · rcases hexists with ⟨wo, hwomem, hwodate⟩
    rcases latestWorkoutForDate_isSome wo hwomem hwodate with ⟨m, hm⟩
    rw [hm] at hnolat
    cases hnolat

/-- Claim C2 — Sequential logging with no explicit workout id: two sets logged
for the same fresh calendar date `d` create exactly one workout row for `d`
and attach both set rows to it; a third set logged for a different fresh
date `d2` creates a second workout row.  Moreover (final conjunct) a
no-explicit-id log never inserts a workout row for a date that already has
one. -/
theorem log_same_date_single_workout
    (db db1 db2 db3 : Store) (exName : String) (ex : Exercise)
    (wt1 wt2 wt3 : ℚ) (r1 r2 r3 : ℤ) (unit : String)
    (d d2 ts1 ts2 ts3 : String)
    (rpe1 rpe2 rpe3 : Option ℚ) (n1 n2 n3 : Option String)
    (hex : find_exercise_by_name db exName = some ex)
    (hu : unit = "kg" ∨ unit = "lb")
    (hr1 : 0 < r1) (hr2 : 0 < r2) (hr3 : 0 < r3)
    (hfresh : ∀ w ∈ db.workouts, w.date ≠ d ∧ w.date ≠ d2)
    (hdd : d ≠ d2)
    (h1 : db1 = (cmd_log db exName wt1 r1 unit d ts1 none rpe1 n1).1)
    (h2 : db2 = (cmd_log db1 exName wt2 r2 unit d ts2 none rpe2 n2).1)
    (h3 : db3 = (cmd_log db2 exName wt3 r3 unit d2 ts3 none rpe3 n3).1) :
    countWorkoutsOnDate db2.workouts d = 1 ∧
    db2.workouts.length = db.workouts.length + 1 ∧
    (∃ sa sb : SetRow, db2.sets = db.sets ++ [sa, sb] ∧
      sa.workout_id = sb.workout_id ∧
      ∃ w ∈ db2.workouts, w.id = sa.workout_id ∧ w.date = d) ∧
    countWorkoutsOnDate db3.workouts d2 = 1 ∧
    db3.workouts.length = db.workouts.length + 2 ∧
    (∀ (db0 : Store) (exN : String) (wt : ℚ) (r : ℤ) (u dd tts : String)
       (rp : Option ℚ) (nn : Option String),
       (∃ wo ∈ db0.workouts, wo.date = dd) →
       ((cmd_log db0 exN wt r u dd tts none rp nn).1).workouts.length
         = db0.workouts.length) := by
  have hfd : ∀ w ∈ db.workouts, w.date ≠ d := fun w hw => (hfresh w hw).1
  have hfd2 : ∀ w ∈ db.workouts, w.date ≠ d2 := fun w hw => (hfresh w hw).2
  -- Step 1: the first log creates a fresh workout `nw` and appends set `s1`.
  let nw : Workout := ⟨db.nextWorkoutId, d, ts1, some ts1, none⟩
  let sA : SetRow :=
    ⟨db.nextSetId, db.nextWorkoutId, ex.id, ts1, wt1, unit, toKilograms wt1 unit,
     r1, rpe1, pyOr n1 none⟩
  let DB1 : Store :=
    ⟨db.exercises, db.workouts ++ [nw], db.sets ++ [sA], db.nextExerciseId,
     db.nextWorkoutId + 1, db.nextSetId + 1⟩
  have hs1 : cmd_log db exName wt1 r1 unit d ts1 none rpe1 n1 = (DB1, .ok ()) := by
    rw [cmd_log_implicit_eq hex hu hr1 d ts1 rpe1 n1, get_or_create_fresh hfd]
    rfl
  have hfst : (cmd_log db exName wt1 r1 unit d ts1 none rpe1 n1).1 = DB1 := by
    rw [hs1]
  -- Step 2: the second log finds `nw` again and appends set `s2` to it.
  have hlat2 : latestWorkoutForDate DB1.workouts d = some nw :=
    latestWorkoutForDate_append rfl hfd
  obtain ⟨hgid, hgw, hgsets, hgex, hgnext⟩ :=
    @get_or_create_found DB1 d ts2 nw hlat2
  have hs2 : cmd_log DB1 exName wt2 r2 unit d ts2 none rpe2 n2 =
      (insertNewSet (get_or_create_workout_for_date DB1 d ts2).1
        (get_or_create_workout_for_date DB1 d ts2).2 ex.id ts2 wt2 unit
        (toKilograms wt2 unit) r2 rpe2 n2, .ok ()) :=
    cmd_log_implicit_eq (show find_exercise_by_name DB1 exName = some ex from hex)
      hu hr2 d ts2 rpe2 n2
  have hdb2workouts : ((cmd_log DB1 exName wt2 r2 unit d ts2 none rpe2 n2).1).workouts
      = (get_or_create_workout_for_date DB1 d ts2).1.workouts := by rw [hs2]; rfl
  have hdb2sets : ((cmd_log DB1 exName wt2 r2 unit d ts2 none rpe2 n2).1).sets
      = (get_or_create_workout_for_date DB1 d ts2).1.sets ++
        [⟨(get_or_create_workout_for_date DB1 d ts2).1.nextSetId,
          (get_or_create_workout_for_date DB1 d ts2).2, ex.id, ts2, wt2, unit,
          toKilograms wt2 unit, r2, rpe2, pyOr n2 none⟩] := by rw [hs2]; rfl
  have hdb2ex : ((cmd_log DB1 exName wt2 r2 unit d ts2 none rpe2 n2).1).exercises
      = db.exercises := by rw [hs2]; exact hgex
  have hcountd : countWorkoutsOnDate
      (get_or_create_workout_for_date DB1 d ts2).1.workouts d = 1 := by
    have hbase : countWorkoutsOnDate (db.workouts ++ [nw]) d = 1 := by
      rw [countWorkoutsOnDate_append, countWorkoutsOnDate_eq_zero hfd,
        countWorkoutsOnDate_singleton (show nw.date = d from rfl)]
    rcases hgw with hmap | hid2
    · rw [hmap, countWorkoutsOnDate_map_update]
      exact hbase
    · rw [hid2]
      exact hbase
  have hlen2 : (get_or_create_workout_for_date DB1 d ts2).1.workouts.length
      = db.workouts.length + 1 := by
    have hbase : (db.workouts ++ [nw]).length = db.workouts.length + 1 := by simp
    rcases hgw with hmap | hid2
    · rw [hmap, List.length_map]; exact hbase
    · rw [hid2]; exact hbase
  have hmemw : ∃ w ∈ (get_or_create_workout_for_date DB1 d ts2).1.workouts,
      w.id = db.nextWorkoutId ∧ w.date = d := by
    have hnwmem : nw ∈ DB1.workouts := by
      show nw ∈ db.workouts ++ [nw]; simp
    rcases hgw with hmap | hid2
    · rw [hmap]
      rcases mem_map_update_self hnwmem nw.id ts2 with ⟨w2, hw2mem, hw2id, hw2date⟩
      exact ⟨w2, hw2mem, by rw [hw2id], by rw [hw2date]⟩
    · rw [hid2]
      exact ⟨nw, hnwmem, rfl, rfl⟩
  have hfresh3 : ∀ w ∈ (get_or_create_workout_for_date DB1 d ts2).1.workouts,
      w.date ≠ d2 := by
    intro w hw
    have hdates : ∃ x ∈ DB1.workouts, w.date = x.date := by
      rcases hgw with hmap | hid2
      · rw [hmap] at hw; exact date_mem_map_update hw
      · rw [hid2] at hw; exact ⟨w, hw, rfl⟩
    rcases hdates with ⟨x, hxmem, hxdate⟩
    have hxmem2 : x ∈ db.workouts ++ [nw] := hxmem
    rcases List.mem_append.mp hxmem2 with hx1 | hx2
    · rw [hxdate]; exact hfd2 x hx1
    · have hxnw : x = nw := by simpa using hx2
      rw [hxdate, hxnw]
      exact fun hcon => hdd hcon
  -- Step 3: the third log on the fresh date `d2` inserts a second workout.
  have hex3 : find_exercise_by_name
      ((cmd_log DB1 exName wt2 r2 unit d ts2 none rpe2 n2).1) exName = some ex := by
    unfold find_exercise_by_name
    rw [hdb2ex]
    exact hex
  have hfresh3w : ∀ w ∈ ((cmd_log DB1 exName wt2 r2 unit d ts2 none rpe2 n2).1).workouts,
      w.date ≠ d2 := by
    rw [hdb2workouts]; exact hfresh3
  have hs3 : cmd_log ((cmd_log DB1 exName wt2 r2 unit d ts2 none rpe2 n2).1)
      exName wt3 r3 unit d2 ts3 none rpe3 n3 =
      (insertNewSet
        ({ ((cmd_log DB1 exName wt2 r2 unit d ts2 none rpe2 n2).1) with
            workouts := ((cmd_log DB1 exName wt2 r2 unit d ts2 none rpe2 n2).1).workouts ++
              [⟨((cmd_log DB1 exName wt2 r2 unit d ts2 none rpe2 n2).1).nextWorkoutId,
                d2, ts3, some ts3, none⟩],
            nextWorkoutId :=
              ((cmd_log DB1 exName wt2 r2 unit d ts2 none rpe2 n2).1).nextWorkoutId + 1 })
        ((cmd_log DB1 exName wt2 r2 unit d ts2 none rpe2 n2).1).nextWorkoutId
        ex.id ts3 wt3 unit (toKilograms wt3 unit) r3 rpe3 n3, .ok ()) := by
    rw [cmd_log_implicit_eq hex3 hu hr3 d2 ts3 rpe3 n3, get_or_create_fresh hfresh3w]
  have hdb3w : ((cmd_log ((cmd_log DB1 exName wt2 r2 unit d ts2 none rpe2 n2).1)
        exName wt3 r3 unit d2 ts3 none rpe3 n3).1).workouts
      = ((cmd_log DB1 exName wt2 r2 unit d ts2 none rpe2 n2).1).workouts ++
        [⟨((cmd_log DB1 exName wt2 r2 unit d ts2 none rpe2 n2).1).nextWorkoutId,
          d2, ts3, some ts3, none⟩] := by
    rw [hs3]
    rfl
  subst h1 h2 h3
  rw [hfst]
  refine ⟨by rw [hdb2workouts]; exact hcountd,
    by rw [hdb2workouts]; exact hlen2, ?_, ?_, ?_,
    cmd_log_no_new_workout_when_date_exists⟩
  · refine ⟨sA,
      ⟨(get_or_create_workout_for_date DB1 d ts2).1.nextSetId,
       (get_or_create_workout_for_date DB1 d ts2).2, ex.id, ts2, wt2, unit,
       toKilograms wt2 unit, r2, rpe2, pyOr n2 none⟩, ?_, ?_, ?_⟩
    · rw [hdb2sets, hgsets]
      show (db.sets ++ [sA]) ++ _ = db.sets ++ [sA, _]
      simp
    · exact hgid.symm
    · rw [hdb2workouts]
      exact hmemw
  · rw [hdb3w, countWorkoutsOnDate_append,
      countWorkoutsOnDate_eq_zero hfresh3w,
      countWorkoutsOnDate_singleton (rfl :
        (⟨((cmd_log DB1 exName wt2 r2 unit d ts2 none rpe2 n2).1).nextWorkoutId,
          d2, ts3, some ts3, none⟩ : Workout).date = d2)]
  · rw [hdb3w]
    rw [List.length_append, hdb2workouts, hlen2]
    rfl

/-- Claim C6 — `epley_e1rm` is pure and total: it returns the weight unchanged
for `reps ≤ 1` and `weight * (1 + reps/30)` for `reps > 1`. -/
theorem epley_e1rm_spec (w : ℚ) (r : ℤ) :
    (r ≤ 1 → epley_e1rm w r = w) ∧
    (1 < r → epley_e1rm w r = w * (1 + (r : ℚ) / 30)) := by
  constructor
  · intro h
    unfold epley_e1rm
    rw [if_pos h]
  · intro h
    unfold epley_e1rm
    rw [if_neg (by omega : ¬ r ≤ 1)]

theorem epley_e1rm_spec_witness :
    epley_e1rm 100 1 = 100 ∧ epley_e1rm 80 10 = 80 * (1 + ((10 : ℤ) : ℚ) / 30) :=
  ⟨(epley_e1rm_spec 100 1).1 (by norm_num),
   (epley_e1rm_spec 80 10).2 (by norm_num)⟩

/-- Claim C7 (amended) — `epley_e1rm` is strictly increasing in the weight for
every rep count, and increasing in the rep count only on nonnegative
weights: non-strictly for `0 ≤ w`, strictly for `0 < w` on the validated
range `1 ≤ reps`. -/
theorem epley_e1rm_monotone :
    (∀ (r : ℤ) (w w2 : ℚ), w ≤ w2 → epley_e1rm w r ≤ epley_e1rm w2 r) ∧
    (∀ (r : ℤ) (w w2 : ℚ), w < w2 → epley_e1rm w r < epley_e1rm w2 r) ∧
    (∀ w : ℚ, 0 ≤ w → ∀ r r2 : ℤ, r ≤ r2 → epley_e1rm w r ≤ epley_e1rm w r2) ∧
    (∀ w : ℚ, 0 < w → ∀ r r2 : ℤ, 1 ≤ r → r < r2 →
      epley_e1rm w r < epley_e1rm w r2) := by
  have hcoef : ∀ r : ℤ, 1 < r → (1 : ℚ) < 1 + (r : ℚ) / 30 := by
    intro r hr
    have h2 : (2 : ℚ) ≤ (r : ℚ) := by exact_mod_cast (by omega : (2 : ℤ) ≤ r)
    linarith
  refine ⟨?_, ?_, ?_, ?_⟩
  · intro r w w2 hw
    unfold epley_e1rm
    by_cases hr : r ≤ 1
    · rw [if_pos hr, if_pos hr]; exact hw
    · rw [if_neg hr, if_neg hr]
      have hc : (0 : ℚ) < 1 + (r : ℚ) / 30 := by
        have := hcoef r (by omega)
        linarith
      exact mul_le_mul_of_nonneg_right hw (le_of_lt hc)
  · intro r w w2 hw
    unfold epley_e1rm
    by_cases hr : r ≤ 1
    · rw [if_pos hr, if_pos hr]; exact hw
    · rw [if_neg hr, if_neg hr]
      have hc : (0 : ℚ) < 1 + (r : ℚ) / 30 := by
        have := hcoef r (by omega)
        linarith
      exact mul_lt_mul_of_pos_right hw hc
  · intro w hw r r2 hrr
    unfold epley_e1rm
    by_cases h2 : r2 ≤ 1
    · rw [if_pos (le_trans hrr h2), if_pos h2]
    · rw [if_neg h2]
      have hc2 : (1 : ℚ) ≤ 1 + (r2 : ℚ) / 30 := le_of_lt (hcoef r2 (by omega))
      by_cases h1 : r ≤ 1
      · rw [if_pos h1]
        calc w = w * 1 := (mul_one w).symm
          _ ≤ w * (1 + (r2 : ℚ) / 30) := mul_le_mul_of_nonneg_left hc2 hw
      · rw [if_neg h1]
        have hcast : (r : ℚ) ≤ (r2 : ℚ) := by exact_mod_cast hrr
        have hle : 1 + (r : ℚ) / 30 ≤ 1 + (r2 : ℚ) / 30 := by linarith
        exact mul_le_mul_of_nonneg_left hle hw
  · intro w hw r r2 h1r hrr
    unfold epley_e1rm
    rw [if_neg (by omega : ¬ r2 ≤ 1)]
    by_cases h1 : r ≤ 1
    · rw [if_pos h1]
      have hc2 : (1 : ℚ) < 1 + (r2 : ℚ) / 30 := hcoef r2 (by omega)
      calc w = w * 1 := (mul_one w).symm
        _ < w * (1 + (r2 : ℚ) / 30) := mul_lt_mul_of_pos_left hc2 hw
    · rw [if_neg h1]
      have hcast : (r : ℚ) < (r2 : ℚ) := by exact_mod_cast hrr
      have hlt : 1 + (r : ℚ) / 30 < 1 + (r2 : ℚ) / 30 := by linarith
      exact mul_lt_mul_of_pos_left hlt hw

theorem epley_e1rm_monotone_witness :
    epley_e1rm 80 5 ≤ epley_e1rm 100 5 ∧ epley_e1rm 100 3 < epley_e1rm 100 5 :=
  ⟨epley_e1rm_monotone.1 5 80 100 (by norm_num),
   epley_e1rm_monotone.2.2.2 100 (by norm_num) 3 5 (by norm_num) (by norm_num)⟩

/-- Claim C7 (counterexample) — on a negative weight, which `cmd_log` accepts
unchecked, `epley_e1rm` is not increasing in the rep count: going from
1 rep to 2 reps at −30 kg lowers the estimate from −30 to −32. -/
theorem epley_e1rm_reps_monotone_cex :
    epley_e1rm (-30) 1 = -30 ∧ epley_e1rm (-30) 2 = -32 ∧
    ¬ epley_e1rm (-30) 1 ≤ epley_e1rm (-30) 2 := by
  refine ⟨by norm_num [epley_e1rm], by norm_num [epley_e1rm], ?_⟩
  norm_num [epley_e1rm]

/-- Claim C9 — logging a set for an exercise name that does not exist fails with
the distinct exercise-not-found outcome and returns the store unchanged:
no set row and no workout row is persisted. -/
theorem log_missing_exercise (db : Store) (exercise : String) (weight : ℚ)
    (reps : ℤ) (unit : String) (d ts : String) (workout_id : Option Nat)
    (rpe : Option ℚ) (notes : Option String)
    (hu : unit = "kg" ∨ unit = "lb") (hr : 0 < reps)
    (hex : find_exercise_by_name db exercise = none) :
    cmd_log db exercise weight reps unit d ts workout_id rpe notes
      = (db, .error .exerciseNotFound) := by
  have h1 : ¬(unit ≠ "kg" ∧ unit ≠ "lb") := by rcases hu with h | h <;> simp [h]
  unfold cmd_log
  rw [if_neg h1, if_neg (by omega : ¬ reps ≤ 0), hex]

/-- The store of the concrete runs below: one exercise "Bench", no
workouts, no sets. -/
def dbBench0 : Store := ⟨[⟨1, "Bench", none, none⟩], [], [], 2, 1, 1⟩

theorem log_missing_exercise_witness :
    cmd_log dbBench0 "Squat" 100 5 "kg" "2024-01-01" "2024-01-01T10:00:00"
        none none none
      = (dbBench0, .error .exerciseNotFound) :=
  log_missing_exercise dbBench0 "Squat" 100 5 "kg" "2024-01-01"
    "2024-01-01T10:00:00" none none none (Or.inl rfl) (by decide) (by decide)

/-- The two possible shapes of the sets table after `cmd_log`: on every
error outcome no set row is written; on success exactly one set row is
appended, carrying the original (weight, unit) pair and the canonical
kilogram value computed by the line-236 conversion. -/
theorem cmd_log_sets_cases (db : Store) (exercise : String) (weight : ℚ)
    (reps : ℤ) (unit : String) (d ts : String) (workout_id : Option Nat)
    (rpe : Option ℚ) (notes : Option String) :
    ((∃ err, (cmd_log db exercise weight reps unit d ts workout_id rpe notes).2
        = .error err) ∧
      ((cmd_log db exercise weight reps unit d ts workout_id rpe notes).1).sets
        = db.sets) ∨
    ((cmd_log db exercise weight reps unit d ts workout_id rpe notes).2 = .ok () ∧
      (unit = "kg" ∨ unit = "lb") ∧
      ∃ sid wid2 exid : Nat,
        ((cmd_log db exercise weight reps unit d ts workout_id rpe notes).1).sets
          = db.sets ++
            [⟨sid, wid2, exid, ts, weight, unit, toKilograms weight unit, reps,
              rpe, pyOr notes none⟩]) := by
  unfold cmd_log
  by_cases h1 : (unit ≠ "kg" ∧ unit ≠ "lb")
  · rw [if_pos h1]; exact Or.inl ⟨⟨.badUnit, rfl⟩, rfl⟩
  rw [if_neg h1]
  have hu : unit = "kg" ∨ unit = "lb" := by
    by_cases hk : unit = "kg"
    · exact Or.inl hk
    · by_cases hl : unit = "lb"
      · exact Or.inr hl
      · exact absurd ⟨hk, hl⟩ h1
  by_cases h2 : reps ≤ 0
  · rw [if_pos h2]; exact Or.inl ⟨⟨.badReps, rfl⟩, rfl⟩
  rw [if_neg h2]
  cases hex : find_exercise_by_name db exercise with
  | none => exact Or.inl ⟨⟨.exerciseNotFound, rfl⟩, rfl⟩
  | some ex =>
    cases workout_id with
    | some wid =>
      dsimp only
      by_cases hany : (db.workouts.any fun w => w.id == wid) = true
      · rw [if_pos hany]
        exact Or.inr ⟨rfl, hu, db.nextSetId, wid, ex.id, rfl⟩
      · rw [if_neg hany]
        exact Or.inl ⟨⟨.fkViolationWorkout, rfl⟩, rfl⟩
    | none =>
      dsimp only
      refine Or.inr ⟨rfl, hu,
        (get_or_create_workout_for_date db d ts).1.nextSetId,
        (get_or_create_workout_for_date db d ts).2, ex.id, ?_⟩
      have hstep : (insertNewSet (get_or_create_workout_for_date db d ts).1
            (get_or_create_workout_for_date db d ts).2 ex.id ts weight unit
            (toKilograms weight unit) reps rpe notes).sets
          = (get_or_create_workout_for_date db d ts).1.sets ++
            [⟨(get_or_create_workout_for_date db d ts).1.nextSetId,
              (get_or_create_workout_for_date db d ts).2, ex.id, ts, weight, unit,
              toKilograms weight unit, reps, rpe, pyOr notes none⟩] := rfl
      rw [hstep, get_or_create_sets_eq]

/-- Claim C4 — the canonical-weight invariant: `toKilograms` is the identity on
kilograms and multiplication by `LB_TO_KG` on pounds; every set row
persisted by `cmd_log` satisfies `weight_kg = toKilograms input_weight
input_unit` (so the invariant is preserved over the whole sets table), and
the original (value, unit) pair is stored alongside the canonical value. -/
theorem canonical_weight_invariant :
    (∀ w : ℚ, toKilograms w "kg" = w) ∧
    (∀ w : ℚ, toKilograms w "lb" = w * LB_TO_KG) ∧
    (∀ (db : Store) (exercise : String) (weight : ℚ) (reps : ℤ) (unit : String)
       (d ts : String) (workout_id : Option Nat) (rpe : Option ℚ)
       (notes : Option String),
       (∀ s ∈ db.sets, SetOk s) →
       ∀ s ∈ ((cmd_log db exercise weight reps unit d ts workout_id rpe
         notes).1).sets, SetOk s) ∧
    (∀ (db db2 : Store) (exercise : String) (weight : ℚ) (reps : ℤ)
       (unit : String) (d ts : String) (workout_id : Option Nat)
       (rpe : Option ℚ) (notes : Option String),
       cmd_log db exercise weight reps unit d ts workout_id rpe notes
         = (db2, .ok ()) →
       ∃ s : SetRow, db2.sets = db.sets ++ [s] ∧ s.input_weight = weight ∧
         s.input_unit = unit ∧ s.reps = reps ∧
         s.weight_kg = toKilograms weight unit) := by
  refine ⟨fun w => by simp [toKilograms],
    fun w => by
      unfold toKilograms
      rw [if_neg (by decide : ¬ ("lb" : String) = "kg")], ?_, ?_⟩
  · intro db exercise weight reps unit d ts workout_id rpe notes hall s hs
    rcases cmd_log_sets_cases db exercise weight reps unit d ts workout_id rpe
        notes with ⟨_, hsets⟩ | ⟨_, hu, sid, wid2, exid, hsets⟩
    · rw [hsets] at hs
      exact hall s hs
    · rw [hsets] at hs
      rcases List.mem_append.mp hs with hold | hnew
      · exact hall s hold
      · have hseq : s = ⟨sid, wid2, exid, ts, weight, unit,
            toKilograms weight unit, reps, rpe, pyOr notes none⟩ := by
          simpa using hnew
        rw [hseq]
        refine ⟨fun hkg => ?_, fun hlb => ?_⟩
        · show toKilograms weight unit = weight
          rw [show unit = "kg" from hkg]
          unfold toKilograms
          rw [if_pos rfl]
        · show toKilograms weight unit = weight * LB_TO_KG
          rw [show unit = "lb" from hlb]
          unfold toKilograms
          rw [if_neg (by decide : ¬ ("lb" : String) = "kg")]
  · intro db db2 exercise weight reps unit d ts workout_id rpe notes h
    rcases cmd_log_sets_cases db exercise weight reps unit d ts workout_id rpe
        notes with ⟨⟨err, herr⟩, _⟩ | ⟨_, hu, sid, wid2, exid, hsets⟩
    · rw [h] at herr
      simp at herr
    · refine ⟨⟨sid, wid2, exid, ts, weight, unit, toKilograms weight unit, reps,
        rpe, pyOr notes none⟩, ?_, rfl, rfl, rfl, rfl⟩
      rw [h] at hsets
      exact hsets

theorem canonical_weight_invariant_witness :
    ∃ s : SetRow,
      (⟨[⟨1, "Bench", none, none⟩],
        [⟨1, "2024-01-01", "2024-01-01T10:00:00", some "2024-01-01T10:00:00",
          none⟩],
        [⟨1, 1, 1, "2024-01-01T10:00:00", 60, "kg", 60, 5, none, none⟩],
        2, 2, 2⟩ : Store).sets
        = dbBench0.sets ++ [s] ∧
      s.input_weight = 60 ∧ s.input_unit = "kg" ∧ s.reps = 5 ∧
      s.weight_kg = toKilograms 60 "kg" :=
  canonical_weight_invariant.2.2.2 dbBench0 _ "Bench" 60 5 "kg" "2024-01-01"
    "2024-01-01T10:00:00" none none none (by decide)

/-- Claim C8 — the exercise upsert applies a coalesce update to the stored row:
each attribute of the matched row is replaced exactly when a non-null new
value is provided, every other row is untouched, and in particular
re-adding with only a new primary muscle (`secondary_muscles = none`)
leaves every stored `secondary_muscles` value unchanged. -/
theorem exercise_upsert_coalesce (db : Store) (name : String)
    (p s : Option String) (ex : Exercise)
    (hex : find_exercise_by_name db name = some ex) :
    (∀ (i : Nat) (e : Exercise), db.exercises[i]? = some e →
       ((add_or_update_exercise db name p s).1).exercises[i]? =
         some (if e.id = ex.id then
                 { e with primary_muscle := coalesce p e.primary_muscle,
                          secondary_muscles := coalesce s e.secondary_muscles }
               else e)) ∧
    (∀ old, coalesce none old = old) ∧
    (∀ v old, coalesce (some v) old = some v) ∧
    (∀ (i : Nat) (e : Exercise), db.exercises[i]? = some e →
       ∃ e2 : Exercise,
         ((add_or_update_exercise db name p none).1).exercises[i]? = some e2 ∧
         e2.secondary_muscles = e.secondary_muscles ∧ e2.id = e.id ∧
         e2.name = e.name) := by
  refine ⟨?_, fun old => rfl, fun v old => rfl, ?_⟩
  · intro i e hi
    unfold add_or_update_exercise
    rw [hex]
    dsimp only
    rw [List.getElem?_map, hi]
    rfl
  · intro i e hi
    refine ⟨if e.id = ex.id then
        { e with primary_muscle := coalesce p e.primary_muscle,
                 secondary_muscles := coalesce none e.secondary_muscles }
      else e, ?_, ?_, ?_, ?_⟩
    · unfold add_or_update_exercise
      rw [hex]
      dsimp only
      rw [List.getElem?_map, hi]
      rfl
    · by_cases h : e.id = ex.id <;> simp [h, coalesce]
    · by_cases h : e.id = ex.id <;> simp [h]
    · by_cases h : e.id = ex.id <;> simp [h]

/-- Store used by the upsert runs: one exercise with both muscle
attributes set. -/
def dbBench : Store := ⟨[⟨1, "Bench", some "chest", some "triceps"⟩], [], [], 2, 1, 1⟩

theorem exercise_upsert_coalesce_witness :
    ∃ e2 : Exercise,
      ((add_or_update_exercise dbBench "Bench" (some "shoulders") none).1).exercises[0]?
        = some e2 ∧
      e2.secondary_muscles = some "triceps" ∧ e2.id = 1 ∧ e2.name = "Bench" :=
  (exercise_upsert_coalesce dbBench "Bench" (some "shoulders") none
    ⟨1, "Bench", some "chest", some "triceps"⟩ (by decide)).2.2.2 0
    ⟨1, "Bench", some "chest", some "triceps"⟩ (by decide)

theorem pyOr_eq_coalesce {x : Option String} (hx : x ≠ some "")
    (old : Option String) : pyOr x old = coalesce x old := by
  cases x with
  | none => rfl
  | some v =>
    have hv : ¬ v = "" := fun h => hx (by rw [h])
    simp [pyOr, coalesce, hv]

/-- Claim C10 (amended) — the `Exercise` record returned by the upsert on an
existing name equals the row it persisted whenever every provided
attribute is null or a non-empty string; a provided empty string is kept
by the SQL `COALESCE` but dropped by the Python `or` of the returned
record, so the two diverge exactly there. -/
theorem upsert_return_matches_store (db : Store) (name : String)
    (p s : Option String) (ex : Exercise)
    (hex : find_exercise_by_name db name = some ex)
    (hp : p ≠ some "") (hs : s ≠ some "")
    (i : Nat) (hi : db.exercises[i]? = some ex) :
    ((add_or_update_exercise db name p s).1).exercises[i]? =
      some (add_or_update_exercise db name p s).2 := by
  have hname : ex.name = name := by
    have hfind := List.find?_some hex
    simpa using hfind
  unfold add_or_update_exercise
  rw [hex]
  dsimp only
  rw [List.getElem?_map, hi]
  rw [show (Option.map (fun e =>
      if e.id = ex.id then
        { e with primary_muscle := coalesce p e.primary_muscle,
                 secondary_muscles := coalesce s e.secondary_muscles }
      else e) (some ex)) = some (if ex.id = ex.id then
        { ex with primary_muscle := coalesce p ex.primary_muscle,
                  secondary_muscles := coalesce s ex.secondary_muscles }
      else ex) from rfl]
  rw [if_pos rfl, pyOr_eq_coalesce hp, pyOr_eq_coalesce hs, hname]

theorem upsert_return_matches_store_witness :
    ((add_or_update_exercise dbBench "Bench" (some "shoulders") none).1).exercises[0]?
      = some (add_or_update_exercise dbBench "Bench" (some "shoulders") none).2 :=
  upsert_return_matches_store dbBench "Bench" (some "shoulders") none
    ⟨1, "Bench", some "chest", some "triceps"⟩ (by decide) (by decide) (by decide)
    0 (by decide)

/-- Claim C10 (counterexample) — upserting an existing exercise with the empty
string as the secondary-muscles value: the store keeps `""` (COALESCE
treats it as present) while the returned record keeps the old
`"triceps"` (Python `or` treats `""` as absent), so the returned record is
not the persisted row. -/
theorem upsert_return_cex :
    ((add_or_update_exercise dbBench "Bench" none (some "")).1).exercises
        = [⟨1, "Bench", some "chest", some ""⟩] ∧
    (add_or_update_exercise dbBench "Bench" none (some "")).2
        = ⟨1, "Bench", some "chest", some "triceps"⟩ ∧
    (add_or_update_exercise dbBench "Bench" none (some "")).2 ∉
      ((add_or_update_exercise dbBench "Bench" none (some "")).1).exercises := by
  decide

/-- Store exhibiting the summary formula: a single set of 30 kg × 1 rep. -/
def dbSummary : Store :=
  ⟨[⟨1, "Press", none, none⟩], [⟨1, "2024-01-01", "T1", some "T1", none⟩],
   [⟨1, 1, 1, "T1", 30, "kg", 30, 1, none, none⟩], 2, 2, 2⟩

/-- Claim C1 — the SQL aggregate of `cmd_summary` does NOT agree with
`epley_e1rm` on every stored set: for a single stored set of 30 kg × 1 rep
the summary's `MAX(weight_kg * (1.0 + reps / 30.0))` reports 31, while
`epley_e1rm` (and the spec's e1rm) give 30, because the SQL expression has
no `reps <= 1` branch. -/
theorem summary_best_e1rm_deviates_on_single_rep :
    summary_best_e1rm dbSummary 1 = some 31 ∧
    maxEpleyE1rm (setsOfExercise dbSummary 1) = some 30 ∧
    epley_e1rm 30 1 = 30 ∧ sqlE1rm 30 1 = 31 ∧
    summary_best_e1rm dbSummary 1 ≠ maxEpleyE1rm (setsOfExercise dbSummary 1) := by
  norm_num [summary_best_e1rm, maxSqlE1rm, maxEpleyE1rm, setsOfExercise,
    dbSummary, sqlE1rm, epley_e1rm, List.filter]

theorem maxSqlE1rm_isSome {l : List SetRow} (h : l ≠ []) :
    ∃ m, maxSqlE1rm l = some m := by
  cases l with
  | nil => exact absurd rfl h
  | cons a t =>
    cases h2 : maxSqlE1rm t with
    | none => exact ⟨sqlE1rm a.weight_kg a.reps, by simp [maxSqlE1rm, h2]⟩
    | some m2 =>
      exact ⟨max (sqlE1rm a.weight_kg a.reps) m2, by simp [maxSqlE1rm, h2]⟩

theorem maxSqlE1rm_attained : ∀ {l : List SetRow} {m : ℚ},
    maxSqlE1rm l = some m → ∃ s ∈ l, sqlE1rm s.weight_kg s.reps = m := by
  intro l
  induction l with
  | nil => intro m h; simp [maxSqlE1rm] at h
  | cons a t ih =>
    intro m h
    cases h2 : maxSqlE1rm t with
    | none =>
      simp only [maxSqlE1rm, h2] at h
      exact ⟨a, List.mem_cons_self a t, Option.some.inj h⟩
    | some m2 =>
      simp only [maxSqlE1rm, h2] at h
      have hm := Option.some.inj h
      rcases max_choice (sqlE1rm a.weight_kg a.reps) m2 with hmax | hmax
      · exact ⟨a, List.mem_cons_self a t, by rw [← hm, hmax]⟩
      · rcases ih h2 with ⟨s0, hs0, hval⟩
        exact ⟨s0, List.mem_cons_of_mem _ hs0, by rw [← hm, hmax, hval]⟩

/-- Store of the spec's prs example: 80 kg × 10 and 100 kg × 3. -/
def dbPrs : Store :=
  ⟨[⟨1, "Press", none, none⟩], [⟨1, "2024-01-01", "t0", some "t0", none⟩],
   [⟨1, 1, 1, "t1", 80, "kg", 80, 10, none, none⟩,
    ⟨2, 1, 1, "t2", 100, "kg", 100, 3, none, none⟩], 2, 2, 3⟩

/-- Claim C5 (amended) — for every exercise with at least one set, `cmd_prs`
reports a nonempty list: exactly the sets whose SQL expression
`weight_kg * (1.0 + reps / 30.0)` attains the per-exercise maximum of that
expression (several under ties, and selected by the branch-free SQL
formula rather than `epley_e1rm`); for the spec's example the single
100 kg × 3 set is reported. -/
theorem prs_reports_max_rows :
    (∀ (db : Store) (exId : Nat), setsOfExercise db exId ≠ [] →
       prs_rows_for db exId ≠ [] ∧
       (∀ r ∈ prs_rows_for db exId,
          r ∈ setsOfExercise db exId ∧
          some (sqlE1rm r.weight_kg r.reps)
            = maxSqlE1rm (setsOfExercise db exId)) ∧
       (∀ s ∈ setsOfExercise db exId,
          some (sqlE1rm s.weight_kg s.reps)
            = maxSqlE1rm (setsOfExercise db exId) →
          s ∈ prs_rows_for db exId)) ∧
    prs_rows_for dbPrs 1 = [⟨2, 1, 1, "t2", 100, "kg", 100, 3, none, none⟩] := by
  constructor
  · intro db exId hne
    obtain ⟨m, hm⟩ := maxSqlE1rm_isSome hne
    obtain ⟨s0, hs0, hv⟩ := maxSqlE1rm_attained hm
    refine ⟨?_, ?_, ?_⟩
    · have hmem : s0 ∈ prs_rows_for db exId := by
        unfold prs_rows_for
        refine List.mem_filter.mpr ⟨hs0, ?_⟩
        rw [hm, hv]
        exact decide_eq_true rfl
      exact List.ne_nil_of_mem hmem
    · intro r hr
      unfold prs_rows_for at hr
      have hr2 := List.mem_filter.mp hr
      exact ⟨hr2.1, (of_decide_eq_true hr2.2).symm⟩
    · intro s hs hveq
      unfold prs_rows_for
      exact List.mem_filter.mpr ⟨hs, decide_eq_true hveq.symm⟩
  · norm_num [prs_rows_for, setsOfExercise, maxSqlE1rm, sqlE1rm, dbPrs,
      List.filter]

theorem prs_reports_max_rows_witness : prs_rows_for dbPrs 1 ≠ [] :=
  (prs_reports_max_rows.1 dbPrs 1 (by decide)).1

/-- Store with a tied maximum (two sets of 100 kg × 1) plus a 95 kg × 2 set
whose epley e1RM is higher than that of the 1-rep sets. -/
def dbPrsTie : Store :=
  ⟨[⟨1, "Press", none, none⟩], [⟨1, "2024-01-01", "t0", some "t0", none⟩],
   [⟨1, 1, 1, "t1", 100, "kg", 100, 1, none, none⟩,
    ⟨2, 1, 1, "t2", 100, "kg", 100, 1, none, none⟩,
    ⟨3, 1, 1, "t3", 95, "kg", 95, 2, none, none⟩], 2, 2, 4⟩

/-- Claim C5 (counterexample) — on `dbPrsTie`, `cmd_prs` reports two sets for the
single exercise (not exactly one), and every reported set's `epley_e1rm`
value is 100, which is not the per-exercise maximum epley e1RM 304/3
(attained by the unreported 95 kg × 2 set). -/
theorem prs_exactly_one_max_set_cex :
    (prs_rows_for dbPrsTie 1).length = 2 ∧
    maxEpleyE1rm (setsOfExercise dbPrsTie 1) = some (304 / 3) ∧
    (∀ r ∈ prs_rows_for dbPrsTie 1, epley_e1rm r.weight_kg r.reps = 100) ∧
    (100 : ℚ) ≠ 304 / 3 := by
  norm_num [prs_rows_for, setsOfExercise, maxSqlE1rm, maxEpleyE1rm, sqlE1rm,
    epley_e1rm, dbPrsTie, List.filter]

/-- Store after logging 60 kg × 5 on 2024-01-01 into `dbBench0`. -/
def dbW1 : Store :=
  ⟨[⟨1, "Bench", none, none⟩],
   [⟨1, "2024-01-01", "2024-01-01T10:00:00", some "2024-01-01T10:00:00", none⟩],
   [⟨1, 1, 1, "2024-01-01T10:00:00", 60, "kg", 60, 5, none, none⟩], 2, 2, 2⟩

/-- Store after additionally logging 80 kg × 3 on the same date. -/
def dbW2 : Store :=
  ⟨[⟨1, "Bench", none, none⟩],
   [⟨1, "2024-01-01", "2024-01-01T10:00:00", some "2024-01-01T10:05:00", none⟩],
   [⟨1, 1, 1, "2024-01-01T10:00:00", 60, "kg", 60, 5, none, none⟩,
    ⟨2, 1, 1, "2024-01-01T10:05:00", 80, "kg", 80, 3, none, none⟩], 2, 2, 3⟩

/-- Store after additionally logging 70 kg × 2 on 2024-01-02. -/
def dbW3 : Store :=
  ⟨[⟨1, "Bench", none, none⟩],
   [⟨1, "2024-01-01", "2024-01-01T10:00:00", some "2024-01-01T10:05:00", none⟩,
    ⟨2, "2024-01-02", "2024-01-02T09:00:00", some "2024-01-02T09:00:00", none⟩],
   [⟨1, 1, 1, "2024-01-01T10:00:00", 60, "kg", 60, 5, none, none⟩,
    ⟨2, 1, 1, "2024-01-01T10:05:00", 80, "kg", 80, 3, none, none⟩,
    ⟨3, 2, 1, "2024-01-02T09:00:00", 70, "kg", 70, 2, none, none⟩], 2, 3, 4⟩

theorem log_same_date_single_workout_witness :
    countWorkoutsOnDate dbW2.workouts "2024-01-01" = 1 :=
  (log_same_date_single_workout dbBench0 dbW1 dbW2 dbW3 "Bench"
    ⟨1, "Bench", none, none⟩ 60 80 70 5 3 2 "kg" "2024-01-01" "2024-01-02"
    "2024-01-01T10:00:00" "2024-01-01T10:05:00" "2024-01-02T09:00:00"
    none none none none none none (by decide) (Or.inl rfl) (by decide)
    (by decide) (by decide) (by decide) (by decide) (by decide) (by decide)
    (by decide)).1

theorem workout_end_time_monotone_witness :
    ∃ e2, (⟨1, "2024-01-01", "2024-01-01T10:00:00", some "2024-01-01T10:05:00",
        none⟩ : Workout).end_time = some e2 ∧ "2024-01-01T10:00:00" ≤ e2 :=
  workout_end_time_monotone dbW1 "Bench" 80 3 "kg" "2024-01-01"
    "2024-01-01T10:05:00" none none none (by decide) 0
    ⟨1, "2024-01-01", "2024-01-01T10:00:00", some "2024-01-01T10:00:00", none⟩
    ⟨1, "2024-01-01", "2024-01-01T10:00:00", some "2024-01-01T10:05:00", none⟩
    "2024-01-01T10:00:00" (by decide) (by decide) rfl

end WorkoutPy
